import Mathlib

/-!
Shallow embedding of the `ali-oss-rs` object-storage client, covering the
multipart upload coordinator (`src/multipart.rs`) and the object operations
(`src/object.rs`).  Components the source files use but which live outside
the provided sources (the request model in `request.rs`, the validators in
`util.rs`, the transport executor `Client::do_request`, the XML decoders in
`multipart_common.rs` / `object_common.rs`, and the `base64` crate's
standard engine) are modelled from the specification; each such definition
says so in its doc comment.  Bytes are modelled as `String`s of characters
with code points below 256.  Every operation is embedded as a pure function
of the client value, a network oracle, and its arguments, returning the
(unchanged) client, the list of requests it issued, and its result.
-/

/-- HTTP request methods used by the request model. Modelled from the spec:
`RequestMethod` of `request.rs` is not under `src/`; the variants used by the
sources are Get, Put, Post, Delete and Head. -/
inductive RequestMethod where
  | Get
  | Put
  | Post
  | Delete
  | Head
deriving DecidableEq, Repr

/-- Request body variants. Modelled from the spec: `RequestBody` of the request
model has exactly the variants Empty, Bytes(owned buffer) and File(path,
optional byte range) (spec section 4.1). Byte buffers are modelled as strings. -/
inductive RequestBody where
  | EmptyBody
  | Bytes (data : String)
  | File (path : String) (range : Option (Nat × Nat))
deriving DecidableEq, Repr

/-- The request model. Modelled from the spec: `OssRequest` of `request.rs` is
not under `src/`; per spec section 3 it carries method, bucket, object key,
headers, query parameters, exactly one body variant and an optional content
length. -/
structure OssRequest where
  method : RequestMethod
  bucket : String
  object : String
  headers : List (String × String)
  query : List (String × String)
  body : RequestBody
  content_length : Option Nat
deriving DecidableEq, Repr

/-- The empty request every builder chain starts from (`OssRequest::new()`). -/
def OssRequest.new : OssRequest :=
  { method := .Get, bucket := "", object := "", headers := [], query := [],
    body := .EmptyBody, content_length := none }

/-- Typed errors. Modelled from the spec: the `Error` enum of `error.rs` is not
under `src/`; the sources pattern-match `Error::Other(String)` and
`Error::StatusError(StatusCode)`, and spec section 7 adds transport errors,
decode errors for malformed XML, and the base64 decode error converted by `?`
in `upload_part_from_base64`. Status codes are modelled as naturals. -/
inductive Error where
  | other (msg : String)
  | statusError (status : Nat)
  | transport (msg : String)
  | xmlDecode (msg : String)
  | base64DecodeError
deriving DecidableEq, Repr

/-- The client value. Modelled from the spec: `Client` of `client.rs` is not
under `src/`; it holds only the caller's configuration (endpoint, region and
credentials, cf. `Client::from_env` in the tests), and the coordinator holds
no global mutable state (spec section 5). -/
structure Client where
  endpoint : String
  region : String
  access_key_id : String
  access_key_secret : String
deriving DecidableEq, Repr

/-- One item of a streamed response body: a chunk of bytes, or a transport
failure surfaced while reading the stream (spec section 4.3: the body is a
lazy, finite sequence of byte chunks). -/
inductive ChunkItem where
  | chunk (data : String)
  | fail (msg : String)
deriving DecidableEq, Repr

/-- Raw outcome of sending one request: a transport error, or a response with
a status code, headers and a body stream. -/
inductive NetResult where
  | transportError (msg : String)
  | response (status : Nat) (headers : List (String × String)) (body : List ChunkItem)
deriving DecidableEq, Repr

/-- The network oracle: what the service answers to each request. -/
def Net : Type := OssRequest → NetResult

deriving instance DecidableEq for Except

/-- Outcome of one embedded operation: the client value after the call, the
requests issued over the network during the call, and the typed result. -/
structure Out (α : Type) where
  client : Client
  sent : List OssRequest
  result : Except Error α
deriving DecidableEq

/-- Modelled from the spec: `validate_bucket_name` of `util.rs` is not under
`src/`. Spec section 7 classifies an "empty/malformed bucket name" as a local
validation error; we model the name as well formed when it is non-empty,
made only of lowercase letters, digits and hyphens, and does not begin or end
with a hyphen. -/
def validate_bucket_name (s : String) : Bool :=
  !s.data.isEmpty
    && s.data.all (fun c => (97 ≤ c.toNat && c.toNat ≤ 122) || (48 ≤ c.toNat && c.toNat ≤ 57) || c = '-')
    && !(s.data.head? = some '-')
    && !(s.data.getLast? = some '-')

/-- Modelled from the spec: `validate_object_key` of `util.rs` is not under
`src/`. The doc comment of `put_object_from_file` in `src/object.rs` states
the constraints: length between 1 and 1023, and the key must not start or end
with a slash or a backslash. -/
def validate_object_key (s : String) : Bool :=
  !s.data.isEmpty
    && s.data.length ≤ 1023
    && !(s.data.head? = some '/')
    && !(s.data.head? = some '\\')
    && !(s.data.getLast? = some '/')
    && !(s.data.getLast? = some '\\')

/-- Modelled from the spec: `validate_path` of `util.rs` is not under `src/`.
The test `test_download_file_3_async` in `src/object.rs` treats paths holding
characters such as greater-than signs, pipes, semicolons or NUL bytes as
invalid; we model a path as valid when it is non-empty and holds none of
those characters. -/
def validate_path (s : String) : Bool :=
  !s.data.isEmpty && s.data.all (fun c => c ≠ '>' && c ≠ '|' && c ≠ ';' && c.toNat ≠ 0)

/-- Value of one character of the standard base64 alphabet. Models the
`base64` crate's `BASE64_STANDARD` alphabet (A-Z, a-z, 0-9, plus, slash). -/
def b64Val (c : Char) : Option Nat :=
  let n := c.toNat
  if 65 ≤ n ∧ n ≤ 90 then some (n - 65)
  else if 97 ≤ n ∧ n ≤ 122 then some (n - 97 + 26)
  else if 48 ≤ n ∧ n ≤ 57 then some (n - 48 + 52)
  else if n = 43 then some 62
  else if n = 47 then some 63
  else none

/-- Decode a list of base64 characters four at a time. Models the `base64`
crate's `BASE64_STANDARD` engine: canonical padding is required, padding may
only close the final quantum, and trailing bits must be zero. Decoded bytes
are returned as characters. -/
def decodeB64Blocks : List Char → Option (List Char)
  | [] => some []
  | a :: b :: c :: d :: rest =>
    match b64Val a, b64Val b with
    | some va, some vb =>
      if c = '=' then
        if d = '=' ∧ rest = [] ∧ vb % 16 = 0 then
          some [Char.ofNat (va * 4 + vb / 16)]
        else
          none
      else
        match b64Val c with
        | some vc =>
          if d = '=' then
            if rest = [] ∧ vc % 4 = 0 then
              some [Char.ofNat (va * 4 + vb / 16), Char.ofNat ((vb % 16) * 16 + vc / 4)]
            else
              none
          else
            match b64Val d with
            | some vd =>
              (decodeB64Blocks rest).map
                (fun t => Char.ofNat (va * 4 + vb / 16)
                  :: Char.ofNat ((vb % 16) * 16 + vc / 4)
                  :: Char.ofNat ((vc % 4) * 64 + vd) :: t)
            | none => none
        | none => none
    | _, _ => none
  | _ => none

/-- Decode a standard base64 string to bytes (modelled as a string), or `none`
when the input is not valid standard base64. Models
`BASE64_STANDARD.decode`. -/
def decodeBase64 (s : String) : Option String :=
  (decodeB64Blocks s.data).map List.asString

/-- Whether the first list is a prefix of the second. -/
def listIsPrefix : List Char → List Char → Bool
  | [], _ => true
  | _ :: _, [] => false
  | a :: as, b :: bs => a = b && listIsPrefix as bs

/-- The suffix following the first occurrence of `pat`, if `pat` occurs. -/
def findAfter (pat : List Char) : List Char → Option (List Char)
  | [] => if pat.isEmpty then some [] else none
  | l@(_ :: rest) =>
    if listIsPrefix pat l then some (l.drop pat.length) else findAfter pat rest

/-- The prefix preceding the first occurrence of `pat`, if `pat` occurs. -/
def takeUntil (pat : List Char) : List Char → Option (List Char)
  | [] => if pat.isEmpty then some [] else none
  | l@(c :: rest) =>
    if listIsPrefix pat l then some [] else (takeUntil pat rest).map (fun t => c :: t)

/-- Extract the text between the first `<tag>` and the following `</tag>`,
used by the modelled XML decoders. -/
def extractTag (tag s : String) : Option String :=
  (findAfter ("<" ++ tag ++ ">").data s.data).bind
    (fun suffix => (takeUntil ("</" ++ tag ++ ">").data suffix).map List.asString)

/-- Extract the text of every `<tag>...</tag>` occurrence, in order. -/
def extractAllAux (opening closing : List Char) : List Char → List String
  | [] => []
  | l@(_ :: rest) =>
    if listIsPrefix opening l then
      match takeUntil closing (l.drop opening.length) with
      | some seg => seg.asString :: extractAllAux opening closing rest
      | none => extractAllAux opening closing rest
    else
      extractAllAux opening closing rest

/-- Extract the text of every `<tag>...</tag>` occurrence, in order. -/
def extractAll (tag s : String) : List String :=
  extractAllAux ("<" ++ tag ++ ">").data ("</" ++ tag ++ ">").data s.data

/-- Parse the value of one decimal digit. -/
def digitVal (c : Char) : Option Nat :=
  if 48 ≤ c.toNat ∧ c.toNat ≤ 57 then some (c.toNat - 48) else none

/-- Fold decimal digits into a natural number. -/
def parseNatAux : List Char → Nat → Option Nat
  | [], acc => some acc
  | c :: rest, acc =>
    match digitVal c with
    | some d => parseNatAux rest (acc * 10 + d)
    | none => none

/-- Parse a decimal natural number (the `parse` of numeric response fields). -/
def parseNat (s : String) : Option Nat :=
  match s.data with
  | [] => none
  | l => parseNatAux l 0

/-- Look a key up in a header or parameter list (first match wins). -/
def lookupHeader (hs : List (String × String)) (k : String) : Option String :=
  (hs.find? (fun p => p.1 = k)).map (fun p => p.2)

/-- Callback descriptor. Modelled from the spec: the `Callback` built by
`CallbackBuilder` in `object_common.rs` is not under `src/`; per spec
sections 3 and 4.5 it carries a target URL, a list of body parameters and a
table of named substitution variables, serialized into two headers at send
time. Body parameters are modelled already rendered to key/value pairs. -/
structure Callback where
  url : String
  body_parameters : List (String × String)
  custom_variables : List (String × String)
deriving DecidableEq, Repr

/-- Serialize a callback descriptor into the two transport headers that carry
the callback directive and the variable substitutions (spec section 4.5). -/
def callbackHeaders (cb : Callback) : List (String × String) :=
  [("x-oss-callback",
      cb.url ++ "|" ++ String.intercalate ";" (cb.body_parameters.map (fun p => p.1 ++ "=" ++ p.2))),
   ("x-oss-callback-var",
      String.intercalate ";" (cb.custom_variables.map (fun p => p.1 ++ "=" ++ p.2)))]

/-- Options of a put-object call. Modelled from the spec: `PutObjectOptions`
of `object_common.rs` is not under `src/`; the tests show a MIME type,
metadata, tags, a storage class and an optional callback descriptor. -/
structure PutObjectOptions where
  mime_type : Option String
  metadata : List (String × String)
  tags : List (String × String)
  storage_class : Option String
  callback : Option Callback
deriving DecidableEq, Repr

/-- Options of an append-object call. Modelled from the spec:
`AppendObjectOptions` of `object_common.rs` is not under `src/`; the append
operations in `src/object.rs` use no callback branch, so only the MIME type
and metadata are modelled. -/
structure AppendObjectOptions where
  mime_type : Option String
  metadata : List (String × String)
deriving DecidableEq, Repr

/-- Options of a get-object call. Modelled from the spec: `GetObjectOptions`
of `object_common.rs` is not under `src/`; the tests show an optional byte
`Range` request header (spec section 6), and a version id is modelled after
the other option types. -/
structure GetObjectOptions where
  range : Option String
  version_id : Option String
deriving DecidableEq, Repr

/-- Options of a metadata probe. The only field `src/object.rs` reads is the
optional version id turned into a `versionId` query parameter. -/
structure GetObjectMetadataOptions where
  version_id : Option String
deriving DecidableEq, Repr

/-- Structured response of a put-object call without callback, built from the
response headers. Modelled from the spec: `PutObjectApiResponse` of
`object_common.rs` is not under `src/`; the tests show request id, etag,
content MD5, CRC64 and version id fields. -/
structure PutObjectApiResponse where
  request_id : String
  etag : String
  content_md5 : String
  hash_crc64ecma : String
  version_id : String
deriving DecidableEq, Repr

/-- Result of a put-object call: a normal API response, or the raw response
body of the callback target when a callback was attached (`PutObjectResult`
in `object_common.rs`, matched by the tests in `src/object.rs`). -/
inductive PutObjectResult where
  | ApiResponse (r : PutObjectApiResponse)
  | CallbackResponse (body : String)
deriving DecidableEq, Repr

/-- Build a `PutObjectApiResponse` from response headers (the `headers.into()`
conversion). Modelled from the spec: header-only results are read from the
response headers (spec section 4.3). -/
def putObjectApiResponseOfHeaders (hs : List (String × String)) : PutObjectApiResponse :=
  { request_id := (lookupHeader hs "x-oss-request-id").getD ""
    etag := (lookupHeader hs "etag").getD ""
    content_md5 := (lookupHeader hs "content-md5").getD ""
    hash_crc64ecma := (lookupHeader hs "x-oss-hash-crc64ecma").getD ""
    version_id := (lookupHeader hs "x-oss-version-id").getD "" }

/-- Result of an append-object call, built from the response headers; carries
the next append position (`AppendObjectResult` in `object_common.rs`). -/
structure AppendObjectResult where
  next_append_position : Nat
  etag : String
  hash_crc64ecma : String
deriving DecidableEq, Repr

/-- Build an `AppendObjectResult` from response headers. Modelled from the
spec: header-only results such as the next-append-position are read from the
response headers (spec section 4.3). -/
def appendObjectResultOfHeaders (hs : List (String × String)) : AppendObjectResult :=
  { next_append_position := ((lookupHeader hs "x-oss-next-append-position").bind parseNat).getD 0
    etag := (lookupHeader hs "etag").getD ""
    hash_crc64ecma := (lookupHeader hs "x-oss-hash-crc64ecma").getD "" }

/-- Object metadata built from the response headers of a metadata probe
(`ObjectMetadata::from(headers)` in `src/object.rs`); modelled with the
fields the tests read. -/
structure ObjectMetadata where
  content_length : Nat
  etag : String
  last_modified : Option String
deriving DecidableEq, Repr

/-- Build an `ObjectMetadata` from response headers. Modelled from the spec:
metadata calls are header-only results (spec section 4.3). -/
def objectMetadataOfHeaders (hs : List (String × String)) : ObjectMetadata :=
  { content_length := ((lookupHeader hs "content-length").bind parseNat).getD 0
    etag := (lookupHeader hs "etag").getD ""
    last_modified := lookupHeader hs "last-modified" }

/-- Result of a successful download (`GetObjectResult` in `object_common.rs`,
a unit-like marker value). -/
inductive GetObjectResult where
  | mk
deriving DecidableEq, Repr

/-- Sub-operation parameters of one part upload: the positive part number and
the session's upload id (`UploadPartRequest` in `multipart_common.rs`,
constructed field by field in the tests of `src/multipart.rs`). -/
structure UploadPartRequest where
  part_number : Nat
  upload_id : String
deriving DecidableEq, Repr

/-- Result of one part upload, built from the ETag response header
(`UploadPartResult`, read as `upload_result.etag` in the tests). -/
structure UploadPartResult where
  etag : String
deriving DecidableEq, Repr

/-- Build an `UploadPartResult` from response headers. Modelled from the
spec: the upload-part response carries an ETag header and no body (spec
section 6). -/
def uploadPartResultOfHeaders (hs : List (String × String)) : UploadPartResult :=
  { etag := (lookupHeader hs "etag").getD "" }

/-- Parameters of a server-side part copy: part number, upload id and the
source object reference (`UploadPartCopyRequest::new` in the tests of
`src/multipart.rs`). -/
structure UploadPartCopyRequest where
  part_number : Nat
  upload_id : String
  source_object : String
deriving DecidableEq, Repr

/-- Options of a part copy. Modelled from the spec: `UploadPartCopyOptions` of
`multipart_common.rs` is not under `src/`; the tests set an optional
`copy_source_range` of the form `bytes=start-` or `bytes=start-end` (spec
section 6). -/
structure UploadPartCopyOptions where
  copy_source_range : Option String
deriving DecidableEq, Repr

/-- Result of a part copy, decoded from its XML response body: ETag and last
modified date (spec section 6). -/
structure UploadPartCopyResult where
  etag : String
  last_modified : Option String
deriving DecidableEq, Repr

/-- Decode the XML body of an upload-part-copy response. Modelled from the
spec: the response is an XML body carrying ETag and last-modified (spec
section 6). -/
def UploadPartCopyResult.from_xml (s : String) : Except Error UploadPartCopyResult :=
  match extractTag "ETag" s with
  | some etag => .ok { etag := etag, last_modified := extractTag "LastModified" s }
  | none => .error (.xmlDecode "missing ETag")

/-- Options of the initiate call. Modelled from the spec:
`InitiateMultipartUploadOptions` of `multipart_common.rs` is not under
`src/`; modelled with the MIME type of the object to be assembled. -/
structure InitiateMultipartUploadOptions where
  mime_type : Option String
deriving DecidableEq, Repr

/-- Result of the initiate call: the bucket and key echo plus the
service-issued upload id (spec section 6). -/
structure InitiateMultipartUploadResult where
  bucket : String
  key : String
  upload_id : String
deriving DecidableEq, Repr

/-- Decode the XML body of an initiate response. Modelled from the spec: the
response carries `upload_id` plus bucket/key echo (spec section 6). -/
def InitiateMultipartUploadResult.from_xml (s : String) : Except Error InitiateMultipartUploadResult :=
  match extractTag "UploadId" s with
  | some uid =>
    .ok { bucket := (extractTag "Bucket" s).getD ""
          key := (extractTag "Key" s).getD ""
          upload_id := uid }
  | none => .error (.xmlDecode "missing UploadId")

/-- Options of the list-parts call. Modelled from the spec: `ListPartsOptions`
of `multipart_common.rs` is not under `src/`; modelled with the pagination
controls of spec section 6. -/
structure ListPartsOptions where
  max_parts : Option Nat
  part_number_marker : Option Nat
deriving DecidableEq, Repr

/-- One entry of a list-parts response: part number, etag, size and last
modified date (spec section 6). -/
structure PartEntry where
  part_number : Nat
  etag : String
  size : Nat
  last_modified : Option String
deriving DecidableEq, Repr

/-- Result of the list-parts call: the ordered part entries (spec section 6;
`ret.parts.len()` in the tests of `src/multipart.rs`). -/
structure ListPartsResult where
  parts : List PartEntry
deriving DecidableEq, Repr

/-- Decode one `<Part>` element of a list-parts response. -/
def partEntryOfXml (s : String) : PartEntry :=
  { part_number := ((extractTag "PartNumber" s).bind parseNat).getD 0
    etag := (extractTag "ETag" s).getD ""
    size := ((extractTag "Size" s).bind parseNat).getD 0
    last_modified := extractTag "LastModified" s }

/-- Decode the XML body of a list-parts response. Modelled from the spec: an
XML body of ordered part entries under a `ListPartsResult` root (spec
section 6). -/
def ListPartsResult.from_xml (s : String) : Except Error ListPartsResult :=
  if (findAfter "<ListPartsResult>".data s.data).isSome then
    .ok { parts := (extractAll "Part" s).map partEntryOfXml }
  else
    .error (.xmlDecode "missing ListPartsResult")

/-- Options of the list-multipart-uploads call. Modelled from the spec:
`ListMultipartUploadsOptions` of `multipart_common.rs` is not under `src/`;
the tests show delimiter and maximum-uploads controls. -/
structure ListMultipartUploadsOptions where
  delimiter : Option String
  max_uploads : Option Nat
deriving DecidableEq, Repr

/-- Result of the list-multipart-uploads call: the open sessions as (key,
upload id) pairs plus the declared maximum (`ret.max_uploads` in the tests
of `src/multipart.rs`). -/
structure ListMultipartUploadsResult where
  uploads : List (String × String)
  max_uploads : Nat
deriving DecidableEq, Repr

/-- Decode the XML body of a list-multipart-uploads response. Modelled from
the spec: a bucket-scoped enumeration of open sessions (spec section 6). -/
def ListMultipartUploadsResult.from_xml (s : String) : Except Error ListMultipartUploadsResult :=
  if (findAfter "<ListMultipartUploadsResult>".data s.data).isSome then
    .ok { uploads := (extractAll "Upload" s).map
            (fun u => ((extractTag "Key" u).getD "", (extractTag "UploadId" u).getD ""))
          max_uploads := ((extractTag "MaxUploads" s).bind parseNat).getD 0 }
  else
    .error (.xmlDecode "missing ListMultipartUploadsResult")

/-- The completion manifest: the upload id and the ordered (part number,
etag) pairs (`CompleteMultipartUploadRequest`, constructed field by field in
the tests of `src/multipart.rs`). -/
structure CompleteMultipartUploadRequest where
  upload_id : String
  parts : List (Nat × String)
deriving DecidableEq, Repr

/-- Options of the complete call: the optional callback descriptor
(`CompleteMultipartUploadOptions { callback: Some(cb) }` in the tests of
`src/multipart.rs`). -/
structure CompleteMultipartUploadOptions where
  callback : Option Callback
deriving DecidableEq, Repr

/-- Structured response of a completion without callback, decoded from the
normal completion XML (etag/checksum fields, spec section 4.4). -/
structure CompleteMultipartUploadApiResponse where
  etag : String
  location : Option String
deriving DecidableEq, Repr

/-- Decode the normal completion XML. Modelled from the spec: the
non-callback completion returns a structured result with ETag and related
fields, and a malformed body is a decode error (spec sections 4.4 and 7). -/
def CompleteMultipartUploadApiResponse.from_xml (s : String) : Except Error CompleteMultipartUploadApiResponse :=
  match extractTag "ETag" s with
  | some etag => .ok { etag := etag, location := extractTag "Location" s }
  | none => .error (.xmlDecode "missing ETag")

/-- Result of the complete call: the normal API response, or the raw response
body of the callback target when a callback was attached
(`CompleteMultipartUploadResult` in `multipart_common.rs`, matched by the
tests of `src/multipart.rs`). -/
inductive CompleteMultipartUploadResult where
  | ApiResponse (r : CompleteMultipartUploadApiResponse)
  | CallbackResponse (body : String)
deriving DecidableEq, Repr

/-- Headers contributed by put-object options: MIME type, callback headers
and caller metadata. -/
def putOptionsHeaders (o : PutObjectOptions) : List (String × String) :=
  (match o.mime_type with | some m => [("content-type", m)] | none => [])
    ++ (match o.callback with | some cb => callbackHeaders cb | none => [])
    ++ o.metadata

/-- Modelled from the spec: `build_put_object_request` of `object_common.rs`
is not under `src/`. It validates the bucket name and object key (validation
errors are fail-fast, spec section 7) and builds a PUT request carrying the
body variant and the option headers (spec section 4.1). -/
def build_put_object_request (bucket_name object_key : String) (body : RequestBody)
    (options : Option PutObjectOptions) : Except Error OssRequest :=
  if !validate_bucket_name bucket_name then
    .error (.other ("invalid bucket name: " ++ bucket_name))
  else if !validate_object_key object_key then
    .error (.other ("invalid object key: " ++ object_key))
  else
    .ok { OssRequest.new with
            method := .Put, bucket := bucket_name, object := object_key, body := body,
            headers := (match options with | some o => putOptionsHeaders o | none => []) }

/-- Modelled from the spec: the generic `build_put_object_request` call the
append operations of `src/object.rs` make with `AppendObjectOptions`; same
shape as the put builder with the append option headers. -/
def build_put_object_request_append (bucket_name object_key : String) (body : RequestBody)
    (options : Option AppendObjectOptions) : Except Error OssRequest :=
  if !validate_bucket_name bucket_name then
    .error (.other ("invalid bucket name: " ++ bucket_name))
  else if !validate_object_key object_key then
    .error (.other ("invalid object key: " ++ object_key))
  else
    .ok { OssRequest.new with
            method := .Put, bucket := bucket_name, object := object_key, body := body,
            headers := (match options with
                        | some o => (match o.mime_type with
                                     | some m => [("content-type", m)]
                                     | none => []) ++ o.metadata
                        | none => []) }

/-- Modelled from the spec: `build_get_object_request` of `object_common.rs`
is not under `src/`. It validates bucket and key and builds a GET request; a
`Range` request header selects a byte sub-range (spec section 6). -/
def build_get_object_request (bucket_name object_key : String)
    (options : Option GetObjectOptions) : Except Error OssRequest :=
  if !validate_bucket_name bucket_name then
    .error (.other ("invalid bucket name: " ++ bucket_name))
  else if !validate_object_key object_key then
    .error (.other ("invalid object key: " ++ object_key))
  else
    .ok { OssRequest.new with
            method := .Get, bucket := bucket_name, object := object_key,
            headers := (match options with
                        | some o => (match o.range with
                                     | some r => [("range", r)]
                                     | none => [])
                        | none => []),
            query := (match options with
                      | some o => (match o.version_id with
                                   | some v => [("versionId", v)]
                                   | none => [])
                      | none => []) }

/-- Modelled from the spec: `build_upload_part_request` of
`multipart_common.rs` is not under `src/`. It validates bucket and key and
builds a PUT request identified by `partNumber` and `uploadId` query
parameters whose body is the part's bytes (spec section 6). -/
def build_upload_part_request (bucket_name object_key : String) (body : RequestBody)
    (params : UploadPartRequest) : Except Error OssRequest :=
  if !validate_bucket_name bucket_name then
    .error (.other ("invalid bucket name: " ++ bucket_name))
  else if !validate_object_key object_key then
    .error (.other ("invalid object key: " ++ object_key))
  else
    .ok { OssRequest.new with
            method := .Put, bucket := bucket_name, object := object_key, body := body,
            query := [("partNumber", toString params.part_number), ("uploadId", params.upload_id)] }

/-- Modelled from the spec: `build_upload_part_copy_request` of
`multipart_common.rs` is not under `src/`. Same as the upload-part request
but the request carries a source-object reference header and an optional
byte-range header instead of a body (spec section 6). -/
def build_upload_part_copy_request (bucket_name object_key : String)
    (data : UploadPartCopyRequest) (options : Option UploadPartCopyOptions) :
    Except Error OssRequest :=
  if !validate_bucket_name bucket_name then
    .error (.other ("invalid bucket name: " ++ bucket_name))
  else if !validate_object_key object_key then
    .error (.other ("invalid object key: " ++ object_key))
  else
    .ok { OssRequest.new with
            method := .Put, bucket := bucket_name, object := object_key,
            headers := [("x-oss-copy-source", data.source_object)]
              ++ (match options with
                  | some o => (match o.copy_source_range with
                               | some r => [("x-oss-copy-source-range", r)]
                               | none => [])
                  | none => []),
            query := [("partNumber", toString data.part_number), ("uploadId", data.upload_id)] }

/-- Modelled from the spec: `build_initiate_multipart_uploads_request` of
`multipart_common.rs` is not under `src/`. It validates bucket and key and
issues a request establishing a new session (spec section 6). -/
def build_initiate_multipart_uploads_request (bucket_name object_key : String)
    (options : Option InitiateMultipartUploadOptions) : Except Error OssRequest :=
  if !validate_bucket_name bucket_name then
    .error (.other ("invalid bucket name: " ++ bucket_name))
  else if !validate_object_key object_key then
    .error (.other ("invalid object key: " ++ object_key))
  else
    .ok { OssRequest.new with
            method := .Post, bucket := bucket_name, object := object_key,
            query := [("uploads", "")],
            headers := (match options with
                        | some o => (match o.mime_type with
                                     | some m => [("content-type", m)]
                                     | none => [])
                        | none => []) }

/-- Modelled from the spec: `build_list_parts_request` of
`multipart_common.rs` is not under `src/`. A query by `upload_id` with
optional pagination controls (spec section 6). -/
def build_list_parts_request (bucket_name object_key upload_id : String)
    (options : Option ListPartsOptions) : Except Error OssRequest :=
  if !validate_bucket_name bucket_name then
    .error (.other ("invalid bucket name: " ++ bucket_name))
  else if !validate_object_key object_key then
    .error (.other ("invalid object key: " ++ object_key))
  else
    .ok { OssRequest.new with
            method := .Get, bucket := bucket_name, object := object_key,
            query := [("uploadId", upload_id)]
              ++ (match options with
                  | some o =>
                    (match o.max_parts with
                     | some n => [("max-parts", toString n)]
                     | none => [])
                      ++ (match o.part_number_marker with
                          | some n => [("part-number-marker", toString n)]
                          | none => [])
                  | none => []) }

/-- Modelled from the spec: `build_list_multipart_uploads_request` of
`multipart_common.rs` is not under `src/`. A bucket-scoped enumeration of
open sessions with pagination controls (spec section 6). -/
def build_list_multipart_uploads_request (bucket_name : String)
    (options : Option ListMultipartUploadsOptions) : Except Error OssRequest :=
  .ok { OssRequest.new with
          method := .Get, bucket := bucket_name,
          query := [("uploads", "")]
            ++ (match options with
                | some o =>
                  (match o.delimiter with
                   | some d => [("delimiter", d)]
                   | none => [])
                    ++ (match o.max_uploads with
                        | some n => [("max-uploads", toString n)]
                        | none => [])
                | none => []) }

/-- Serialize the completion manifest to the XML request body: the
`(part_number, etag)` pairs in the order they must be assembled (spec
section 6). -/
def completeManifestXml (parts : List (Nat × String)) : String :=
  "<CompleteMultipartUpload>"
    ++ String.join (parts.map (fun p =>
        "<Part><PartNumber>" ++ toString p.1 ++ "</PartNumber><ETag>" ++ p.2 ++ "</ETag></Part>"))
    ++ "</CompleteMultipartUpload>"

/-- Modelled from the spec: `build_complete_multipart_uploads_request` of
`multipart_common.rs` is not under `src/`. It validates bucket and key and
builds a POST whose body is the XML manifest; if a callback is configured
the callback header pair is attached (spec section 6). -/
def build_complete_multipart_uploads_request (bucket_name object_key : String)
    (data : CompleteMultipartUploadRequest)
    (options : Option CompleteMultipartUploadOptions) : Except Error OssRequest :=
  if !validate_bucket_name bucket_name then
    .error (.other ("invalid bucket name: " ++ bucket_name))
  else if !validate_object_key object_key then
    .error (.other ("invalid object key: " ++ object_key))
  else
    .ok { OssRequest.new with
            method := .Post, bucket := bucket_name, object := object_key,
            query := [("uploadId", data.upload_id)],
            body := .Bytes (completeManifestXml data.parts),
            headers := (match options with
                        | some o => (match o.callback with
                                     | some cb => callbackHeaders cb
                                     | none => [])
                        | none => []) }

/-- Whether a status code counts as success (2xx), per the transport
executor's failure mapping (spec section 4.3). -/
def is2xx (n : Nat) : Bool := 200 ≤ n && n ≤ 299

/-- Materialize a body stream into its full text: the concatenation of the
chunks, or the first stream failure as a transport error (spec section 4.3,
buffered-text mode). -/
def collectBody : List ChunkItem → Except Error String
  | [] => .ok ""
  | .chunk s :: rest => (collectBody rest).map (fun t => s ++ t)
  | .fail m :: _ => .error (.transport m)

/-- Modelled from the spec: `Client::do_request::<String>` of `client.rs` is
not under `src/`. Buffered-text mode of the transport executor: transport
failures surface as-is, any non-2xx status becomes a status-carrying error,
and on success the whole body is materialized as text next to the response
headers (spec section 4.3). -/
def do_request_text (net : Net) (req : OssRequest) :
    Except Error (List (String × String) × String) :=
  match net req with
  | .transportError m => .error (.transport m)
  | .response st hs body =>
    if is2xx st then (collectBody body).map (fun t => (hs, t)) else .error (.statusError st)

/-- Modelled from the spec: `Client::do_request::<()>` of `client.rs` is not
under `src/`. Typed-empty mode of the transport executor: the body is
discarded and only the response headers are returned (spec section 4.3). -/
def do_request_headers (net : Net) (req : OssRequest) :
    Except Error (List (String × String)) :=
  match net req with
  | .transportError m => .error (.transport m)
  | .response st hs _ => if is2xx st then .ok hs else .error (.statusError st)

/-- Modelled from the spec: `Client::do_request::<ByteStream>` of `client.rs`
is not under `src/`. Streamed mode of the transport executor: the body is
exposed as the lazy sequence of its chunks for incremental consumption (spec
section 4.3). -/
def do_request_stream (net : Net) (req : OssRequest) :
    Except Error (List (String × String) × List ChunkItem) :=
  match net req with
  | .transportError m => .error (.transport m)
  | .response st hs body => if is2xx st then .ok (hs, body) else .error (.statusError st)

/-- Strip exactly one leading slash from a character list; translation of
`object_key.strip_prefix("/").unwrap_or(object_key)` in `src/object.rs`. -/
def stripLeadSlash : List Char → List Char
  | [] => []
  | c :: rest => if c = '/' then rest else c :: rest

/-- Whether a character list ends with a slash (`object_key.ends_with("/")`,
`object_key.strip_suffix("/")` tests in `src/object.rs`). -/
def endsSlash (l : List Char) : Bool :=
  match l.getLast? with
  | some c => c = '/'
  | none => false

/-- Strip exactly one trailing slash from a character list; translation of
`object_key.strip_suffix("/").unwrap_or(object_key)` in `src/object.rs`. -/
def stripTrailSlash (l : List Char) : List Char :=
  if endsSlash l then l.dropLast else l

/-- Object-key normalization shared by the four put/append operations of
`src/object.rs`: strip at most one leading slash, then at most one trailing
slash. -/
def normalize_object_key (s : String) : String :=
  ⟨stripTrailSlash (stripLeadSlash s.data)⟩

/-- Folder-key normalization shared by `create_folder` and `delete_folder` in
`src/object.rs`: strip at most one leading slash, then append a trailing
slash exactly when the key does not already end with one. -/
def folder_object_key (s : String) : String :=
  let l := stripLeadSlash s.data
  if endsSlash l then ⟨l⟩ else ⟨l ++ ['/']⟩

/-- Embedding of `Client::list_multipart_uploads` from `src/multipart.rs`. -/
def list_multipart_uploads (c : Client) (net : Net) (bucket_name : String)
    (options : Option ListMultipartUploadsOptions) : Out ListMultipartUploadsResult :=
  if !validate_bucket_name bucket_name then
    ⟨c, [], .error (.other ("invalid bucket name: " ++ bucket_name))⟩
  else
    match build_list_multipart_uploads_request bucket_name options with
    | .error e => ⟨c, [], .error e⟩
    | .ok req =>
      match do_request_text net req with
      | .error e => ⟨c, [req], .error e⟩
      | .ok (_, xml) => ⟨c, [req], ListMultipartUploadsResult.from_xml xml⟩

/-- Embedding of `Client::list_parts` from `src/multipart.rs`. -/
def list_parts (c : Client) (net : Net) (bucket_name object_key upload_id : String)
    (options : Option ListPartsOptions) : Out ListPartsResult :=
  match build_list_parts_request bucket_name object_key upload_id options with
  | .error e => ⟨c, [], .error e⟩
  | .ok req =>
    match do_request_text net req with
    | .error e => ⟨c, [req], .error e⟩
    | .ok (_, xml) => ⟨c, [req], ListPartsResult.from_xml xml⟩

/-- Embedding of `Client::initiate_multipart_uploads` from
`src/multipart.rs`. -/
def initiate_multipart_uploads (c : Client) (net : Net) (bucket_name object_key : String)
    (options : Option InitiateMultipartUploadOptions) : Out InitiateMultipartUploadResult :=
  match build_initiate_multipart_uploads_request bucket_name object_key options with
  | .error e => ⟨c, [], .error e⟩
  | .ok req =>
    match do_request_text net req with
    | .error e => ⟨c, [req], .error e⟩
    | .ok (_, xml) => ⟨c, [req], InitiateMultipartUploadResult.from_xml xml⟩

/-- Embedding of `Client::upload_part_from_file` from `src/multipart.rs`. -/
def upload_part_from_file (c : Client) (net : Net) (bucket_name object_key file_path : String)
    (range : Nat × Nat) (params : UploadPartRequest) : Out UploadPartResult :=
  match build_upload_part_request bucket_name object_key (.File file_path (some range)) params with
  | .error e => ⟨c, [], .error e⟩
  | .ok req =>
    match do_request_headers net req with
    | .error e => ⟨c, [req], .error e⟩
    | .ok hs => ⟨c, [req], .ok (uploadPartResultOfHeaders hs)⟩

/-- Embedding of `Client::upload_part_from_buffer` from `src/multipart.rs`. -/
def upload_part_from_buffer (c : Client) (net : Net) (bucket_name object_key : String)
    (buffer : String) (params : UploadPartRequest) : Out UploadPartResult :=
  match build_upload_part_request bucket_name object_key (.Bytes buffer) params with
  | .error e => ⟨c, [], .error e⟩
  | .ok req =>
    match do_request_headers net req with
    | .error e => ⟨c, [req], .error e⟩
    | .ok hs => ⟨c, [req], .ok (uploadPartResultOfHeaders hs)⟩

/-- Embedding of `Client::upload_part_from_base64` from `src/multipart.rs`:
decode the base64 input (the `?` operator converts a decode failure into the
library error) and delegate to `upload_part_from_buffer`. -/
def upload_part_from_base64 (c : Client) (net : Net) (bucket_name object_key : String)
    (base64_string : String) (params : UploadPartRequest) : Out UploadPartResult :=
  match decodeBase64 base64_string with
  | none => ⟨c, [], .error .base64DecodeError⟩
  | some data => upload_part_from_buffer c net bucket_name object_key data params

/-- Embedding of `Client::upload_part_copy` from `src/multipart.rs`. -/
def upload_part_copy (c : Client) (net : Net) (bucket_name dest_object_key : String)
    (data : UploadPartCopyRequest) (options : Option UploadPartCopyOptions) :
    Out UploadPartCopyResult :=
  match build_upload_part_copy_request bucket_name dest_object_key data options with
  | .error e => ⟨c, [], .error e⟩
  | .ok req =>
    match do_request_text net req with
    | .error e => ⟨c, [req], .error e⟩
    | .ok (_, xml) => ⟨c, [req], UploadPartCopyResult.from_xml xml⟩

/-- The `with_callback` test of `complete_multipart_uploads` in
`src/multipart.rs`: whether the supplied options carry a callback. -/
def completeHasCallback : Option CompleteMultipartUploadOptions → Bool
  | some opt => opt.callback.isSome
  | none => false

/-- Embedding of `Client::complete_multipart_uploads` from
`src/multipart.rs`: whether a callback is configured is read off the options
first, then the request is built and sent, and the branch taken on the
response body is the one chosen before the call. -/
def complete_multipart_uploads (c : Client) (net : Net) (bucket_name object_key : String)
    (data : CompleteMultipartUploadRequest)
    (options : Option CompleteMultipartUploadOptions) : Out CompleteMultipartUploadResult :=
  let with_callback := completeHasCallback options
  match build_complete_multipart_uploads_request bucket_name object_key data options with
  | .error e => ⟨c, [], .error e⟩
  | .ok req =>
    match do_request_text net req with
    | .error e => ⟨c, [req], .error e⟩
    | .ok (_, content) =>
      if with_callback then
        ⟨c, [req], .ok (.CallbackResponse content)⟩
      else
        match CompleteMultipartUploadApiResponse.from_xml content with
        | .ok r => ⟨c, [req], .ok (.ApiResponse r)⟩
        | .error e => ⟨c, [req], .error e⟩

/-- Embedding of `Client::abort_multipart_uploads` from `src/multipart.rs`:
validate the bucket name, the object key and that the upload id is
non-empty, then issue a DELETE with the `uploadId` query parameter and
return unit on success. -/
def abort_multipart_uploads (c : Client) (net : Net)
    (bucket_name object_key upload_id : String) : Out Unit :=
  if !validate_bucket_name bucket_name then
    ⟨c, [], .error (.other ("invalid bucket name: " ++ bucket_name))⟩
  else if !validate_object_key object_key then
    ⟨c, [], .error (.other ("invalid object key: " ++ object_key))⟩
  else if upload_id.data.isEmpty then
    ⟨c, [], .error (.other "invalid upload id: [empty]")⟩
  else
    let req := { OssRequest.new with
                   method := .Delete, bucket := bucket_name, object := object_key,
                   query := [("uploadId", upload_id)] }
    match do_request_headers net req with
    | .error e => ⟨c, [req], .error e⟩
    | .ok _ => ⟨c, [req], .ok ()⟩

/-- The `with_callback` test of the put operations in `src/object.rs`:
whether the supplied options carry a callback. -/
def putHasCallback : Option PutObjectOptions → Bool
  | some opt => opt.callback.isSome
  | none => false

/-- Embedding of `Client::put_object_from_file` from `src/object.rs`: the key
is normalized, the callback flag is read off the options before the call,
and the result shape follows that flag. -/
def put_object_from_file (c : Client) (net : Net) (bucket_name object_key file_path : String)
    (options : Option PutObjectOptions) : Out PutObjectResult :=
  let key := normalize_object_key object_key
  let with_callback := putHasCallback options
  match build_put_object_request bucket_name key (.File file_path none) options with
  | .error e => ⟨c, [], .error e⟩
  | .ok req =>
    match do_request_text net req with
    | .error e => ⟨c, [req], .error e⟩
    | .ok (hs, content) =>
      if with_callback then
        ⟨c, [req], .ok (.CallbackResponse content)⟩
      else
        ⟨c, [req], .ok (.ApiResponse (putObjectApiResponseOfHeaders hs))⟩

/-- Embedding of `Client::put_object_from_buffer` from `src/object.rs`. -/
def put_object_from_buffer (c : Client) (net : Net) (bucket_name object_key : String)
    (buffer : String) (options : Option PutObjectOptions) : Out PutObjectResult :=
  let key := normalize_object_key object_key
  let with_callback := putHasCallback options
  match build_put_object_request bucket_name key (.Bytes buffer) options with
  | .error e => ⟨c, [], .error e⟩
  | .ok req =>
    match do_request_text net req with
    | .error e => ⟨c, [req], .error e⟩
    | .ok (hs, content) =>
      if with_callback then
        ⟨c, [req], .ok (.CallbackResponse content)⟩
      else
        ⟨c, [req], .ok (.ApiResponse (putObjectApiResponseOfHeaders hs))⟩

/-- Embedding of `Client::put_object_from_base64` from `src/object.rs`: a
failed decode is reported as the literal validation error of the source and
a successful decode delegates to `put_object_from_buffer`. -/
def put_object_from_base64 (c : Client) (net : Net) (bucket_name object_key : String)
    (base64_string : String) (options : Option PutObjectOptions) : Out PutObjectResult :=
  match decodeBase64 base64_string with
  | some d => put_object_from_buffer c net bucket_name object_key d options
  | none => ⟨c, [], .error (.other "Decoding base64 string failed")⟩

/-- Embedding of `Client::append_object_from_file` from `src/object.rs`: the
key is normalized, the put request is built and then altered to a POST with
the `append` and `position` query parameters. -/
def append_object_from_file (c : Client) (net : Net) (bucket_name object_key file_path : String)
    (position : Nat) (options : Option AppendObjectOptions) : Out AppendObjectResult :=
  let key := normalize_object_key object_key
  match build_put_object_request_append bucket_name key (.File file_path none) options with
  | .error e => ⟨c, [], .error e⟩
  | .ok req0 =>
    let req := { req0 with
                   method := .Post,
                   query := req0.query ++ [("append", ""), ("position", toString position)] }
    match do_request_headers net req with
    | .error e => ⟨c, [req], .error e⟩
    | .ok hs => ⟨c, [req], .ok (appendObjectResultOfHeaders hs)⟩

/-- Embedding of `Client::append_object_from_buffer` from `src/object.rs`. -/
def append_object_from_buffer (c : Client) (net : Net) (bucket_name object_key : String)
    (buffer : String) (position : Nat) (options : Option AppendObjectOptions) :
    Out AppendObjectResult :=
  let key := normalize_object_key object_key
  match build_put_object_request_append bucket_name key (.Bytes buffer) options with
  | .error e => ⟨c, [], .error e⟩
  | .ok req0 =>
    let req := { req0 with
                   method := .Post,
                   query := req0.query ++ [("append", ""), ("position", toString position)] }
    match do_request_headers net req with
    | .error e => ⟨c, [req], .error e⟩
    | .ok hs => ⟨c, [req], .ok (appendObjectResultOfHeaders hs)⟩

/-- Embedding of `Client::append_object_from_base64` from `src/object.rs`. -/
def append_object_from_base64 (c : Client) (net : Net) (bucket_name object_key : String)
    (base64_string : String) (position : Nat) (options : Option AppendObjectOptions) :
    Out AppendObjectResult :=
  match decodeBase64 base64_string with
  | some d => append_object_from_buffer c net bucket_name object_key d position options
  | none => ⟨c, [], .error (.other "Decoding base64 string failed")⟩

/-- State of the destination file of a download: the bytes written so far and
whether the file was flushed. -/
structure FileState where
  content : String
  flushed : Bool
deriving DecidableEq, Repr

/-- Translation of the download loop of `get_object_to_file` in
`src/object.rs`: consume the stream chunk by chunk, appending each chunk to
the file, stopping at the first stream failure. -/
def write_chunks : List ChunkItem → String → String × Except Error Unit
  | [], acc => (acc, .ok ())
  | .chunk s :: rest, acc => write_chunks rest (acc ++ s)
  | .fail m :: _, acc => (acc, .error (.transport m))

/-- Whether a path is relative (`file_path.is_relative()`), modelled as not
starting with a slash. -/
def is_relative (p : String) : Bool :=
  match p.data with
  | c :: _ => !(c = '/')
  | [] => true

/-- Modelled from the spec: `file_path.canonicalize()` of the standard
library resolves a relative path against the process working directory,
which the embedding threads as an explicit argument. -/
def canonicalize (cwd p : String) : String := cwd ++ "/" ++ p

/-- Outcome of a download: the client, the requests issued, the destination
file if one was created, and the typed result. -/
structure GetFileOut where
  client : Client
  sent : List OssRequest
  file : Option FileState
  result : Except Error GetObjectResult
deriving DecidableEq

/-- Embedding of `Client::get_object_to_file` from `src/object.rs`: resolve
and validate the destination path, issue the GET, create the file, stream
the body into it chunk by chunk, and flush before returning; a stream
failure is returned to the caller without flushing. -/
def get_object_to_file (c : Client) (net : Net) (cwd bucket_name object_key file_path : String)
    (options : Option GetObjectOptions) : GetFileOut :=
  let path := if is_relative file_path then canonicalize cwd file_path else file_path
  if !validate_path path then
    ⟨c, [], none, .error (.other ("invalid file path: " ++ path))⟩
  else
    match build_get_object_request bucket_name object_key options with
    | .error e => ⟨c, [], none, .error e⟩
    | .ok req =>
      match do_request_stream net req with
      | .error e => ⟨c, [req], none, .error e⟩
      | .ok (_, chunks) =>
        match write_chunks chunks "" with
        | (content, .ok ()) => ⟨c, [req], some ⟨content, true⟩, .ok .mk⟩
        | (content, .error e) => ⟨c, [req], some ⟨content, false⟩, .error e⟩

/-- Embedding of `Client::create_folder` from `src/object.rs`: normalize the
folder key, validate the bucket name, and PUT an empty body of content
length zero at the folder key. -/
def create_folder (c : Client) (net : Net) (bucket_name object_key : String) : Out Unit :=
  let key := folder_object_key object_key
  if !validate_bucket_name bucket_name then
    ⟨c, [], .error (.other ("invalid bucket name: " ++ bucket_name))⟩
  else
    let req := { OssRequest.new with
                   method := .Put, bucket := bucket_name, object := key,
                   body := .EmptyBody, content_length := some 0 }
    match do_request_headers net req with
    | .error e => ⟨c, [req], .error e⟩
    | .ok _ => ⟨c, [req], .ok ()⟩

/-- Embedding of `Client::delete_folder` from `src/object.rs`: normalize the
folder key, validate the bucket name, and DELETE the folder key. -/
def delete_folder (c : Client) (net : Net) (bucket_name object_key : String) : Out Unit :=
  let key := folder_object_key object_key
  if !validate_bucket_name bucket_name then
    ⟨c, [], .error (.other ("invalid bucket name: " ++ bucket_name))⟩
  else
    let req := { OssRequest.new with
                   method := .Delete, bucket := bucket_name, object := key }
    match do_request_headers net req with
    | .error e => ⟨c, [req], .error e⟩
    | .ok _ => ⟨c, [req], .ok ()⟩

/-- Embedding of `Client::get_object_metadata` from `src/object.rs`: validate
bucket and key, HEAD the object with the `objectMeta` query parameter and
the optional version id, and build the metadata from the response headers. -/
def get_object_metadata (c : Client) (net : Net) (bucket_name object_key : String)
    (options : Option GetObjectMetadataOptions) : Out ObjectMetadata :=
  if !validate_bucket_name bucket_name then
    ⟨c, [], .error (.other ("invalid bucket name: " ++ bucket_name))⟩
  else if !validate_object_key object_key then
    ⟨c, [], .error (.other ("invalid object key: " ++ object_key))⟩
  else
    let req := { OssRequest.new with
                   method := .Head, bucket := bucket_name, object := object_key,
                   query := [("objectMeta", "")]
                     ++ (match options with
                         | some o => (match o.version_id with
                                      | some v => [("versionId", v)]
                                      | none => [])
                         | none => []) }
    match do_request_headers net req with
    | .error e => ⟨c, [req], .error e⟩
    | .ok hs => ⟨c, [req], .ok (objectMetadataOfHeaders hs)⟩

/-- Embedding of `Client::exists` from `src/object.rs` (named `exists_object`
here because `exists` is reserved in Lean): probe the metadata, translate a
404 status error into `false`, a success into `true`, and propagate every
other error unchanged. -/
def exists_object (c : Client) (net : Net) (bucket_name object_key : String)
    (options : Option GetObjectMetadataOptions) : Out Bool :=
  let m := get_object_metadata c net bucket_name object_key options
  match m.result with
  | .ok _ => ⟨c, m.sent, .ok true⟩
  | .error (.statusError status) =>
    if status = 404 then ⟨c, m.sent, .ok false⟩ else ⟨c, m.sent, .error (.statusError status)⟩
  | .error e => ⟨c, m.sent, .error e⟩

/-- Every failure of `collectBody` is a transport error: stream items fail
only with transport-level messages. -/
lemma collectBody_error_transport : ∀ (l : List ChunkItem) (e : Error),
    collectBody l = .error e → ∃ m, e = .transport m := by
  intro l
  induction l with
  | nil => intro e h; simp [collectBody] at h
  | cons hd tl ih =>
    intro e h
    cases hd with
    | chunk s =>
      unfold collectBody at h
      cases h' : collectBody tl with
      | error e' =>
        rw [h'] at h
        simp [Except.map] at h
        exact h ▸ ih e' h'
      | ok t =>
        rw [h'] at h
        simp [Except.map] at h
    | fail m =>
      unfold collectBody at h
      exact ⟨m, by injection h with h'; exact h'.symm⟩

/-- Every failure of the buffered-text transport mode is a transport error or
a status-carrying error; in particular it is never an XML decode error. -/
lemma do_request_text_error_shape (net : Net) (req : OssRequest) (e : Error)
    (h : do_request_text net req = .error e) :
    (∃ m, e = .transport m) ∨ (∃ st, e = .statusError st) := by
  unfold do_request_text at h
  cases hn : net req with
  | transportError m =>
    rw [hn] at h
    exact Or.inl ⟨m, by injection h with h'; exact h'.symm⟩
  | response st hs body =>
    rw [hn] at h
    by_cases h2 : is2xx st
    · simp only [h2, if_true] at h
      cases hc : collectBody body with
      | error e' =>
        rw [hc] at h
        simp [Except.map] at h
        exact Or.inl (h ▸ collectBody_error_transport body e' hc)
      | ok t =>
        rw [hc] at h
        simp [Except.map] at h
    · simp only [h2, if_false] at h
      exact Or.inr ⟨st, by injection h with h'; exact h'.symm⟩

/-- Every failure of the modelled complete-request builder is a local
validation error (`Error::Other`). -/
lemma build_complete_error_other (bucket_name object_key : String)
    (data : CompleteMultipartUploadRequest)
    (options : Option CompleteMultipartUploadOptions) (e : Error)
    (h : build_complete_multipart_uploads_request bucket_name object_key data options = .error e) :
    ∃ m, e = .other m := by
  unfold build_complete_multipart_uploads_request at h
  by_cases h1 : validate_bucket_name bucket_name
  · simp only [h1] at h
    by_cases h2 : validate_object_key object_key
    · simp [h2] at h
    · simp only [h2] at h
      simp at h
      exact ⟨_, h.symm⟩
  · simp only [h1] at h
    simp at h
    exact ⟨_, h.symm⟩

/-- C1: the shape of every `complete_multipart_uploads` result is decided
solely by whether the supplied options carry a callback, a test made before
the request is issued. With a callback attached every successful result is
`CallbackResponse` wrapping the raw response body text, and no XML decode
error can arise; with no callback every successful result is `ApiResponse`,
obtained exactly by parsing the response body as the completion XML. -/
theorem complete_multipart_uploads_result_shape (c : Client) (net : Net)
    (bucket_name object_key : String) (data : CompleteMultipartUploadRequest)
    (options : Option CompleteMultipartUploadOptions) :
    (completeHasCallback options = true →
      (∀ v, (complete_multipart_uploads c net bucket_name object_key data options).result = .ok v →
        ∃ s, v = .CallbackResponse s) ∧
      (∀ m, (complete_multipart_uploads c net bucket_name object_key data options).result ≠
        .error (.xmlDecode m)) ∧
      (∀ req hs t,
        build_complete_multipart_uploads_request bucket_name object_key data options = .ok req →
        do_request_text net req = .ok (hs, t) →
        (complete_multipart_uploads c net bucket_name object_key data options).result =
          .ok (.CallbackResponse t))) ∧
    (completeHasCallback options = false →
      (∀ v, (complete_multipart_uploads c net bucket_name object_key data options).result = .ok v →
        ∃ a, v = .ApiResponse a) ∧
      (∀ req hs t,
        build_complete_multipart_uploads_request bucket_name object_key data options = .ok req →
        do_request_text net req = .ok (hs, t) →
        (complete_multipart_uploads c net bucket_name object_key data options).result =
          Except.map .ApiResponse (CompleteMultipartUploadApiResponse.from_xml t))) := by
  cases hb : build_complete_multipart_uploads_request bucket_name object_key data options with
  | error e =>
    obtain ⟨m, hm⟩ := build_complete_error_other bucket_name object_key data options e hb
    subst hm
    constructor
    · intro hcb
      refine ⟨?_, ?_, ?_⟩
      · intro v hv
        simp [complete_multipart_uploads, hb] at hv
      · intro mm hv
        simp [complete_multipart_uploads, hb] at hv
      · intro req hs t hb' hd'
        simp at hb'
    · intro hcb
      refine ⟨?_, ?_⟩
      · intro v hv
        simp [complete_multipart_uploads, hb] at hv
      · intro req hs t hb' hd'
        simp at hb'
  | ok req =>
    cases hd : do_request_text net req with
    | error e =>
      constructor
      · intro hcb
        refine ⟨?_, ?_, ?_⟩
        · intro v hv
          simp [complete_multipart_uploads, hb, hd] at hv
        · intro mm hv
          simp [complete_multipart_uploads, hb, hd] at hv
          rcases do_request_text_error_shape net req e hd with ⟨m, hm⟩ | ⟨st, hst⟩ <;> simp_all
        · intro req' hs t hb' hd'
          injection hb' with hreq
          subst hreq
          rw [hd] at hd'
          simp at hd'
      · intro hcb
        refine ⟨?_, ?_⟩
        · intro v hv
          simp [complete_multipart_uploads, hb, hd] at hv
        · intro req' hs t hb' hd'
          injection hb' with hreq
          subst hreq
          rw [hd] at hd'
          simp at hd'
    | ok p =>
      obtain ⟨hs0, t0⟩ := p
      constructor
      · intro hcb
        refine ⟨?_, ?_, ?_⟩
        · intro v hv
          simp [complete_multipart_uploads, hb, hd, hcb] at hv
          exact ⟨t0, hv.symm⟩
        · intro mm hv
          simp [complete_multipart_uploads, hb, hd, hcb] at hv
        · intro req' hs t hb' hd'
          injection hb' with hreq
          subst hreq
          rw [hd] at hd'
          injection hd' with hp
          injection hp with h1 h2
          subst h2
          simp [complete_multipart_uploads, hb, hd, hcb]
      · intro hcb
        refine ⟨?_, ?_⟩
        · intro v hv
          simp [complete_multipart_uploads, hb, hd, hcb] at hv
          cases hx : CompleteMultipartUploadApiResponse.from_xml t0 with
          | ok r =>
            rw [hx] at hv
            simp at hv
            exact ⟨r, hv.symm⟩
          | error e =>
            rw [hx] at hv
            simp at hv
        · intro req' hs t hb' hd'
          injection hb' with hreq
          subst hreq
          rw [hd] at hd'
          injection hd' with hp
          injection hp with h1 h2
          subst h2
          cases hx : CompleteMultipartUploadApiResponse.from_xml t0 with
          | ok r => simp [complete_multipart_uploads, hb, hd, hcb, hx, Except.map]
          | error e => simp [complete_multipart_uploads, hb, hd, hcb, hx, Except.map]

/-- C2: on an input that is not valid standard base64, each of the three
base64-sourced operations raises a local validation error before any request
is constructed or sent: the request list is empty and the result is the
decode error of `src/multipart.rs` or the literal validation message of
`src/object.rs`. -/
theorem base64_invalid_is_local_error (c : Client) (net : Net)
    (bucket_name object_key s : String) (params : UploadPartRequest) (position : Nat)
    (putOpts : Option PutObjectOptions) (appOpts : Option AppendObjectOptions)
    (h : decodeBase64 s = none) :
    (upload_part_from_base64 c net bucket_name object_key s params).sent = [] ∧
    (upload_part_from_base64 c net bucket_name object_key s params).result =
      .error .base64DecodeError ∧
    (put_object_from_base64 c net bucket_name object_key s putOpts).sent = [] ∧
    (put_object_from_base64 c net bucket_name object_key s putOpts).result =
      .error (.other "Decoding base64 string failed") ∧
    (append_object_from_base64 c net bucket_name object_key s position appOpts).sent = [] ∧
    (append_object_from_base64 c net bucket_name object_key s position appOpts).result =
      .error (.other "Decoding base64 string failed") := by
  refine ⟨?_, ?_, ?_, ?_, ?_, ?_⟩ <;>
    simp [upload_part_from_base64, put_object_from_base64, append_object_from_base64, h]

/-- C6: on an input that decodes as standard base64 to bytes `d`, each
base64-sourced operation is extensionally equal to its buffer-sourced
counterpart applied to `d` with the same remaining arguments. -/
theorem base64_ops_equal_buffer_ops (c : Client) (net : Net)
    (bucket_name object_key s d : String) (params : UploadPartRequest) (position : Nat)
    (putOpts : Option PutObjectOptions) (appOpts : Option AppendObjectOptions)
    (h : decodeBase64 s = some d) :
    upload_part_from_base64 c net bucket_name object_key s params =
      upload_part_from_buffer c net bucket_name object_key d params ∧
    put_object_from_base64 c net bucket_name object_key s putOpts =
      put_object_from_buffer c net bucket_name object_key d putOpts ∧
    append_object_from_base64 c net bucket_name object_key s position appOpts =
      append_object_from_buffer c net bucket_name object_key d position appOpts := by
  refine ⟨?_, ?_, ?_⟩ <;>
    simp [upload_part_from_base64, put_object_from_base64, append_object_from_base64, h]

/-- C3: `exists` returns `Ok(true)` when the metadata probe succeeds, returns
`Ok(false)` exactly when the probe fails with a 404 status error, and
propagates every other error to the caller unchanged. -/
theorem exists_object_translates_404 (c : Client) (net : Net)
    (bucket_name object_key : String) (options : Option GetObjectMetadataOptions) :
    (∀ v, (get_object_metadata c net bucket_name object_key options).result = .ok v →
      (exists_object c net bucket_name object_key options).result = .ok true) ∧
    ((get_object_metadata c net bucket_name object_key options).result =
        .error (.statusError 404) →
      (exists_object c net bucket_name object_key options).result = .ok false) ∧
    (∀ e, (get_object_metadata c net bucket_name object_key options).result = .error e →
      e ≠ .statusError 404 →
      (exists_object c net bucket_name object_key options).result = .error e) ∧
    ((exists_object c net bucket_name object_key options).result = .ok false →
      (get_object_metadata c net bucket_name object_key options).result =
        .error (.statusError 404)) := by
  refine ⟨?_, ?_, ?_, ?_⟩
  · intro v hv
    simp [exists_object, hv]
  · intro h
    simp [exists_object, h]
  · intro e he hne
    cases e with
    | statusError st =>
      have h4 : st ≠ 404 := fun hyp => hne (by rw [hyp])
      simp [exists_object, he, h4]
    | other m => simp [exists_object, he]
    | transport m => simp [exists_object, he]
    | xmlDecode m => simp [exists_object, he]
    | base64DecodeError => simp [exists_object, he]
  · intro hfalse
    cases hm : (get_object_metadata c net bucket_name object_key options).result with
    | ok v => simp [exists_object, hm] at hfalse
    | error e =>
      cases e with
      | statusError st =>
        by_cases h4 : st = 404
        · subst h4; rfl
        · simp [exists_object, hm, h4] at hfalse
      | other m => simp [exists_object, hm] at hfalse
      | transport m => simp [exists_object, hm] at hfalse
      | xmlDecode m => simp [exists_object, hm] at hfalse
      | base64DecodeError => simp [exists_object, hm] at hfalse

/-- The request `abort_multipart_uploads` issues once its validations pass: a
DELETE against the object path with `uploadId` as query parameter. -/
def abortRequest (bucket_name object_key upload_id : String) : OssRequest :=
  { OssRequest.new with
      method := .Delete, bucket := bucket_name, object := object_key,
      query := [("uploadId", upload_id)] }

/-- C4: `abort_multipart_uploads` validates the bucket name, the object key
and the upload id before sending: when any validation fails it returns a
local validation error and issues no request, and it issues exactly its one
DELETE request when all three validations pass. -/
theorem abort_multipart_uploads_validates_before_send (c : Client) (net : Net)
    (bucket_name object_key upload_id : String) :
    ((validate_bucket_name bucket_name = false ∨ validate_object_key object_key = false ∨
        upload_id.data.isEmpty = true) →
      (abort_multipart_uploads c net bucket_name object_key upload_id).sent = [] ∧
      ∃ m, (abort_multipart_uploads c net bucket_name object_key upload_id).result =
        .error (.other m)) ∧
    (validate_bucket_name bucket_name = true → validate_object_key object_key = true →
      upload_id.data.isEmpty = false →
      (abort_multipart_uploads c net bucket_name object_key upload_id).sent =
        [abortRequest bucket_name object_key upload_id]) := by
  constructor
  · intro h
    cases hbuck : validate_bucket_name bucket_name with
    | false =>
      refine ⟨?_, ⟨"invalid bucket name: " ++ bucket_name, ?_⟩⟩ <;>
        simp [abort_multipart_uploads, hbuck]
    | true =>
      rcases h with h | h | h
      · rw [h] at hbuck; exact absurd hbuck (by simp)
      · refine ⟨?_, ⟨"invalid object key: " ++ object_key, ?_⟩⟩ <;>
          simp [abort_multipart_uploads, hbuck, h]
      · cases hkey : validate_object_key object_key with
        | false =>
          refine ⟨?_, ⟨"invalid object key: " ++ object_key, ?_⟩⟩ <;>
            simp [abort_multipart_uploads, hbuck, hkey]
        | true =>
          refine ⟨?_, ⟨"invalid upload id: [empty]", ?_⟩⟩ <;>
            simp [abort_multipart_uploads, hbuck, hkey, h]
  · intro h1 h2 h3
    cases hd : do_request_headers net (abortRequest bucket_name object_key upload_id) with
    | error e => simp [abort_multipart_uploads, h1, h2, h3, abortRequest] at hd ⊢; simp [hd]
    | ok hs => simp [abort_multipart_uploads, h1, h2, h3, abortRequest] at hd ⊢; simp [hd]

/-- C5: once its validations pass, `abort_multipart_uploads` suppresses no
service error: every transport failure and every status-carrying error of
the underlying DELETE, a 404 included, is propagated to the caller
unchanged, and on success the operation returns unit. -/
theorem abort_multipart_uploads_propagates_errors (c : Client) (net : Net)
    (bucket_name object_key upload_id : String)
    (h1 : validate_bucket_name bucket_name = true)
    (h2 : validate_object_key object_key = true)
    (h3 : upload_id.data.isEmpty = false) :
    (∀ e, do_request_headers net (abortRequest bucket_name object_key upload_id) = .error e →
      (abort_multipart_uploads c net bucket_name object_key upload_id).result = .error e) ∧
    (∀ st hs body, net (abortRequest bucket_name object_key upload_id) = .response st hs body →
      is2xx st = false →
      (abort_multipart_uploads c net bucket_name object_key upload_id).result =
        .error (.statusError st)) ∧
    (∀ hs, do_request_headers net (abortRequest bucket_name object_key upload_id) = .ok hs →
      (abort_multipart_uploads c net bucket_name object_key upload_id).result = .ok ()) := by
  refine ⟨?_, ?_, ?_⟩
  · intro e he
    simp [abort_multipart_uploads, h1, h2, h3, abortRequest] at he ⊢
    simp [he]
  · intro st hs body hn h2xx
    have he : do_request_headers net (abortRequest bucket_name object_key upload_id) =
        .error (.statusError st) := by
      simp [do_request_headers, hn, h2xx]
    simp [abort_multipart_uploads, h1, h2, h3, abortRequest] at he ⊢
    simp [he]
  · intro hs hok
    simp [abort_multipart_uploads, h1, h2, h3, abortRequest] at hok ⊢
    simp [hok]

/-- Helper for the frame property: `list_multipart_uploads` returns its
client unchanged in every branch. -/
lemma list_multipart_uploads_client (c : Client) (net : Net) (b : String)
    (o : Option ListMultipartUploadsOptions) :
    (list_multipart_uploads c net b o).client = c := by
  unfold list_multipart_uploads
  repeat' split
  all_goals rfl

/-- Helper for the frame property: `list_parts` returns its client unchanged
in every branch. -/
lemma list_parts_client (c : Client) (net : Net) (b k uid : String)
    (o : Option ListPartsOptions) : (list_parts c net b k uid o).client = c := by
  unfold list_parts
  repeat' split
  all_goals rfl

/-- Helper for the frame property: `initiate_multipart_uploads` returns its
client unchanged in every branch. -/
lemma initiate_multipart_uploads_client (c : Client) (net : Net) (b k : String)
    (o : Option InitiateMultipartUploadOptions) :
    (initiate_multipart_uploads c net b k o).client = c := by
  unfold initiate_multipart_uploads
  repeat' split
  all_goals rfl

/-- Helper for the frame property: `upload_part_from_file` returns its client
unchanged in every branch. -/
lemma upload_part_from_file_client (c : Client) (net : Net) (b k fp : String)
    (r : Nat × Nat) (p : UploadPartRequest) :
    (upload_part_from_file c net b k fp r p).client = c := by
  unfold upload_part_from_file
  repeat' split
  all_goals rfl

/-- Helper for the frame property: `upload_part_from_buffer` returns its
client unchanged in every branch. -/
lemma upload_part_from_buffer_client (c : Client) (net : Net) (b k buf : String)
    (p : UploadPartRequest) : (upload_part_from_buffer c net b k buf p).client = c := by
  unfold upload_part_from_buffer
  repeat' split
  all_goals rfl

/-- Helper for the frame property: `upload_part_from_base64` returns its
client unchanged in every branch. -/
lemma upload_part_from_base64_client (c : Client) (net : Net) (b k s : String)
    (p : UploadPartRequest) : (upload_part_from_base64 c net b k s p).client = c := by
  unfold upload_part_from_base64
  cases h : decodeBase64 s with
  | none => rfl
  | some d => exact upload_part_from_buffer_client c net b k d p

/-- Helper for the frame property: `upload_part_copy` returns its client
unchanged in every branch. -/
lemma upload_part_copy_client (c : Client) (net : Net) (b k : String)
    (d : UploadPartCopyRequest) (o : Option UploadPartCopyOptions) :
    (upload_part_copy c net b k d o).client = c := by
  unfold upload_part_copy
  repeat' split
  all_goals rfl

/-- Helper for the frame property: `complete_multipart_uploads` returns its
client unchanged in every branch. -/
lemma complete_multipart_uploads_client (c : Client) (net : Net) (b k : String)
    (d : CompleteMultipartUploadRequest) (o : Option CompleteMultipartUploadOptions) :
    (complete_multipart_uploads c net b k d o).client = c := by
  unfold complete_multipart_uploads
  dsimp only []
  repeat' split
  all_goals rfl

/-- Helper for the frame property: `abort_multipart_uploads` returns its
client unchanged in every branch. -/
lemma abort_multipart_uploads_client (c : Client) (net : Net) (b k uid : String) :
    (abort_multipart_uploads c net b k uid).client = c := by
  unfold abort_multipart_uploads
  dsimp only []
  repeat' split
  all_goals rfl

/-- C7: every multipart operation is embedded as a pure function of the
client value (which in this model is exactly the client's configuration),
the network oracle and the call's arguments — so its outcome is determined
by those alone — and each operation returns the client value unchanged in
every branch, on success and on every failure alike. -/
theorem multipart_operations_preserve_client (c : Client) (net : Net)
    (b k uid fp s buf : String) (r : Nat × Nat) (p : UploadPartRequest)
    (lmo : Option ListMultipartUploadsOptions) (lpo : Option ListPartsOptions)
    (io : Option InitiateMultipartUploadOptions) (cpd : UploadPartCopyRequest)
    (cpo : Option UploadPartCopyOptions) (cd : CompleteMultipartUploadRequest)
    (co : Option CompleteMultipartUploadOptions) :
    (list_multipart_uploads c net b lmo).client = c ∧
    (list_parts c net b k uid lpo).client = c ∧
    (initiate_multipart_uploads c net b k io).client = c ∧
    (upload_part_from_file c net b k fp r p).client = c ∧
    (upload_part_from_buffer c net b k buf p).client = c ∧
    (upload_part_from_base64 c net b k s p).client = c ∧
    (upload_part_copy c net b k cpd cpo).client = c ∧
    (complete_multipart_uploads c net b k cd co).client = c ∧
    (abort_multipart_uploads c net b k uid).client = c :=
  ⟨list_multipart_uploads_client c net b lmo,
   list_parts_client c net b k uid lpo,
   initiate_multipart_uploads_client c net b k io,
   upload_part_from_file_client c net b k fp r p,
   upload_part_from_buffer_client c net b k buf p,
   upload_part_from_base64_client c net b k s p,
   upload_part_copy_client c net b k cpd cpo,
   complete_multipart_uploads_client c net b k cd co,
   abort_multipart_uploads_client c net b k uid⟩

/-- Concatenation, in stream order, of the data of the chunks of a body
stream (meaningful when the stream has no failure). -/
def concatOk : List ChunkItem → String
  | [] => ""
  | .chunk s :: rest => s ++ concatOk rest
  | .fail _ :: _ => ""

/-- First failure of a body stream, if any. -/
def firstFail : List ChunkItem → Option String
  | [] => none
  | .chunk _ :: rest => firstFail rest
  | .fail m :: _ => some m

/-- On a failure-free stream, the download loop writes exactly the
concatenation of the chunks after the bytes already written. -/
lemma write_chunks_ok : ∀ (l : List ChunkItem) (acc : String), firstFail l = none →
    write_chunks l acc = (acc ++ concatOk l, .ok ()) := by
  intro l
  induction l with
  | nil =>
    intro acc h
    simp [write_chunks, concatOk]
  | cons hd tl ih =>
    intro acc h
    cases hd with
    | chunk s =>
      simp only [firstFail] at h
      simp only [write_chunks, concatOk]
      rw [ih (acc ++ s) h, String.append_assoc]
    | fail m =>
      simp [firstFail] at h

/-- On a stream whose first failure is `m`, the download loop stops with the
transport error carrying `m`. -/
lemma write_chunks_fail : ∀ (l : List ChunkItem) (acc m : String), firstFail l = some m →
    ∃ content, write_chunks l acc = (content, .error (.transport m)) := by
  intro l
  induction l with
  | nil =>
    intro acc m h
    simp [firstFail] at h
  | cons hd tl ih =>
    intro acc m h
    cases hd with
    | chunk s =>
      simp only [firstFail] at h
      simpa [write_chunks] using ih (acc ++ s) m h
    | fail m' =>
      simp only [firstFail] at h
      injection h with h'
      subst h'
      exact ⟨acc, by simp [write_chunks]⟩

/-- C8: on a successful download the bytes written to the destination file
are exactly the concatenation, in stream order, of the chunks of the
response body, and the file is flushed before the call returns; when the
stream fails partway through, that error is returned to the caller. -/
theorem get_object_to_file_writes_stream (c : Client) (net : Net)
    (cwd bucket_name object_key file_path : String) (options : Option GetObjectOptions)
    (req : OssRequest) (st : Nat) (hs : List (String × String)) (chunks : List ChunkItem)
    (hpath : validate_path
      (if is_relative file_path then canonicalize cwd file_path else file_path) = true)
    (hreq : build_get_object_request bucket_name object_key options = .ok req)
    (hnet : net req = .response st hs chunks)
    (h2xx : is2xx st = true) :
    (firstFail chunks = none →
      (get_object_to_file c net cwd bucket_name object_key file_path options).result =
        .ok .mk ∧
      (get_object_to_file c net cwd bucket_name object_key file_path options).file =
        some ⟨concatOk chunks, true⟩) ∧
    (∀ m, firstFail chunks = some m →
      (get_object_to_file c net cwd bucket_name object_key file_path options).result =
        .error (.transport m)) := by
  have hds : do_request_stream net req = .ok (hs, chunks) := by
    simp [do_request_stream, hnet, h2xx]
  constructor
  · intro hff
    have hw := write_chunks_ok chunks "" hff
    constructor <;> simp [get_object_to_file, hpath, hreq, hds, hw]
  · intro m hff
    obtain ⟨content, hw⟩ := write_chunks_fail chunks "" m hff
    simp [get_object_to_file, hpath, hreq, hds, hw]

/-- Whether a string begins with a slash. -/
def startsWithSlash (s : String) : Bool :=
  match s.data with
  | c :: _ => c = '/'
  | [] => false

/-- Whether a string ends with a slash. -/
def endsWithSlash (s : String) : Bool := endsSlash s.data

/-- A key that does not begin with a slash is unchanged by the leading-slash
strip. -/
lemma stripLeadSlash_of_not_starts (k : String) (h : startsWithSlash k = false) :
    stripLeadSlash k.data = k.data := by
  unfold startsWithSlash at h
  cases hk : k.data with
  | nil => simp [stripLeadSlash]
  | cons c r =>
    rw [hk] at h
    simp at h
    simp [stripLeadSlash, h]

/-- A key that does not end with a slash is unchanged by the trailing-slash
strip. -/
lemma stripTrailSlash_of_not_ends (l : List Char) (h : endsSlash l = false) :
    stripTrailSlash l = l := by
  simp [stripTrailSlash, h]

/-- A key that neither begins nor ends with a slash is passed through the
put/append normalization unchanged. -/
lemma normalize_object_key_eq_self (k : String) (h1 : startsWithSlash k = false)
    (h2 : endsWithSlash k = false) : normalize_object_key k = k := by
  unfold normalize_object_key
  rw [stripLeadSlash_of_not_starts k h1, stripTrailSlash_of_not_ends k.data h2]

/-- Stripping the leading slash of a slash-headed character list removes
exactly that slash. -/
lemma stripLeadSlash_slash_cons (l : List Char) : stripLeadSlash ('/' :: l) = l := by
  simp [stripLeadSlash]

/-- Stripping the leading slash leaves a list headed by another character
unchanged. -/
lemma stripLeadSlash_cons_of_ne (c : Char) (r : List Char) (h : ¬c = '/') :
    stripLeadSlash (c :: r) = c :: r := by
  simp [stripLeadSlash, h]

/-- A character list closed by a slash ends with a slash. -/
lemma endsSlash_concat_slash (l : List Char) : endsSlash (l ++ ['/']) = true := by
  unfold endsSlash
  simp

/-- Stripping the trailing slash of a slash-closed character list removes
exactly that slash. -/
lemma stripTrailSlash_concat_slash (l : List Char) : stripTrailSlash (l ++ ['/']) = l := by
  unfold stripTrailSlash
  rw [endsSlash_concat_slash]
  simp

/-- Prepending one slash to a key that does not end with a slash normalizes
back to the key itself. -/
lemma normalize_object_key_lead_slash (k : String) (h2 : endsWithSlash k = false) :
    normalize_object_key ("/" ++ k) = k := by
  unfold normalize_object_key
  have hdata : ("/" ++ k).data = '/' :: k.data := by
    rw [String.data_append]
    rfl
  rw [hdata, stripLeadSlash_slash_cons, stripTrailSlash_of_not_ends k.data h2]

/-- Appending one slash to a key that does not begin with a slash normalizes
back to the key itself. -/
lemma normalize_object_key_trail_slash (k : String) (h1 : startsWithSlash k = false) :
    normalize_object_key (k ++ "/") = k := by
  unfold normalize_object_key
  have hdata : (k ++ "/").data = k.data ++ ['/'] := by
    rw [String.data_append]
  rw [hdata]
  unfold startsWithSlash at h1
  cases hk : k.data with
  | nil =>
    simp only [hk, List.nil_append]
    have hl : stripLeadSlash ['/'] = [] := stripLeadSlash_slash_cons []
    rw [hl]
    have ht : stripTrailSlash [] = [] := by simp [stripTrailSlash, endsSlash]
    rw [ht]
    exact String.ext hk.symm
  | cons c r =>
    rw [hk] at h1
    simp at h1
    rw [List.cons_append]
    rw [stripLeadSlash_cons_of_ne c (r ++ ['/']) h1]
    rw [← List.cons_append]
    rw [stripTrailSlash_concat_slash]
    exact String.ext hk.symm

/-- A successfully built put request carries exactly the object key it was
given. -/
lemma build_put_object_request_object (b key : String) (body : RequestBody)
    (o : Option PutObjectOptions) (req : OssRequest)
    (h : build_put_object_request b key body o = .ok req) : req.object = key := by
  unfold build_put_object_request at h
  by_cases hb : validate_bucket_name b
  · simp only [hb] at h
    by_cases hk : validate_object_key key
    · simp only [hk] at h
      simp at h
      rw [← h]
    · simp [hk] at h
  · simp [hb] at h

/-- A successfully built append-flavoured put request carries exactly the
object key it was given. -/
lemma build_put_object_request_append_object (b key : String) (body : RequestBody)
    (o : Option AppendObjectOptions) (req : OssRequest)
    (h : build_put_object_request_append b key body o = .ok req) : req.object = key := by
  unfold build_put_object_request_append at h
  by_cases hb : validate_bucket_name b
  · simp only [hb] at h
    by_cases hk : validate_object_key key
    · simp only [hk] at h
      simp at h
      rw [← h]
    · simp [hk] at h
  · simp [hb] at h

/-- Every request `put_object_from_file` issues addresses the normalized
object key. -/
lemma put_object_from_file_sent_object (c : Client) (net : Net) (b k fp : String)
    (o : Option PutObjectOptions) :
    ∀ req ∈ (put_object_from_file c net b k fp o).sent,
      req.object = normalize_object_key k := by
  intro req hmem
  cases hb : build_put_object_request b (normalize_object_key k) (.File fp none) o with
  | error e => simp [put_object_from_file, hb] at hmem
  | ok r =>
    have hobj := build_put_object_request_object _ _ _ _ _ hb
    cases hd : do_request_text net r with
    | error e =>
      simp [put_object_from_file, hb, hd] at hmem
      rw [hmem]
      exact hobj
    | ok p =>
      obtain ⟨hs, t⟩ := p
      cases hcb : putHasCallback o <;>
        · simp [put_object_from_file, hb, hd, hcb] at hmem
          rw [hmem]
          exact hobj

/-- Every request `put_object_from_buffer` issues addresses the normalized
object key. -/
lemma put_object_from_buffer_sent_object (c : Client) (net : Net) (b k buf : String)
    (o : Option PutObjectOptions) :
    ∀ req ∈ (put_object_from_buffer c net b k buf o).sent,
      req.object = normalize_object_key k := by
  intro req hmem
  cases hb : build_put_object_request b (normalize_object_key k) (.Bytes buf) o with
  | error e => simp [put_object_from_buffer, hb] at hmem
  | ok r =>
    have hobj := build_put_object_request_object _ _ _ _ _ hb
    cases hd : do_request_text net r with
    | error e =>
      simp [put_object_from_buffer, hb, hd] at hmem
      rw [hmem]
      exact hobj
    | ok p =>
      obtain ⟨hs, t⟩ := p
      cases hcb : putHasCallback o <;>
        · simp [put_object_from_buffer, hb, hd, hcb] at hmem
          rw [hmem]
          exact hobj

/-- Every request `append_object_from_file` issues addresses the normalized
object key. -/
lemma append_object_from_file_sent_object (c : Client) (net : Net) (b k fp : String)
    (pos : Nat) (o : Option AppendObjectOptions) :
    ∀ req ∈ (append_object_from_file c net b k fp pos o).sent,
      req.object = normalize_object_key k := by
  intro req hmem
  cases hb : build_put_object_request_append b (normalize_object_key k) (.File fp none) o with
  | error e => simp [append_object_from_file, hb] at hmem
  | ok r =>
    have hobj := build_put_object_request_append_object _ _ _ _ _ hb
    cases hd : do_request_headers net
        { r with
            method := .Post,
            query := r.query ++ [("append", ""), ("position", toString pos)] } with
    | error e =>
      simp [append_object_from_file, hb, hd] at hmem
      rw [hmem]
      exact hobj
    | ok hs =>
      simp [append_object_from_file, hb, hd] at hmem
      rw [hmem]
      exact hobj

/-- Every request `append_object_from_buffer` issues addresses the
normalized object key. -/
lemma append_object_from_buffer_sent_object (c : Client) (net : Net) (b k buf : String)
    (pos : Nat) (o : Option AppendObjectOptions) :
    ∀ req ∈ (append_object_from_buffer c net b k buf pos o).sent,
      req.object = normalize_object_key k := by
  intro req hmem
  cases hb : build_put_object_request_append b (normalize_object_key k) (.Bytes buf) o with
  | error e => simp [append_object_from_buffer, hb] at hmem
  | ok r =>
    have hobj := build_put_object_request_append_object _ _ _ _ _ hb
    cases hd : do_request_headers net
        { r with
            method := .Post,
            query := r.query ++ [("append", ""), ("position", toString pos)] } with
    | error e =>
      simp [append_object_from_buffer, hb, hd] at hmem
      rw [hmem]
      exact hobj
    | ok hs =>
      simp [append_object_from_buffer, hb, hd] at hmem
      rw [hmem]
      exact hobj

/-- C9: the four put/append operations address the object key obtained by
stripping at most one leading slash and then at most one trailing slash; a
key that neither starts nor ends with a slash passes through unchanged, so
adding one such leading or trailing slash to it addresses the same stored
object, the operations being extensionally equal on the two keys. -/
theorem put_append_object_key_normalization (c : Client) (net : Net)
    (b k k' fp buf : String) (pos : Nat)
    (putOpts : Option PutObjectOptions) (appOpts : Option AppendObjectOptions)
    (h1 : startsWithSlash k = false) (h2 : endsWithSlash k = false) :
    (∀ req ∈ (put_object_from_file c net b k' fp putOpts).sent,
      req.object = normalize_object_key k') ∧
    (∀ req ∈ (put_object_from_buffer c net b k' buf putOpts).sent,
      req.object = normalize_object_key k') ∧
    (∀ req ∈ (append_object_from_file c net b k' fp pos appOpts).sent,
      req.object = normalize_object_key k') ∧
    (∀ req ∈ (append_object_from_buffer c net b k' buf pos appOpts).sent,
      req.object = normalize_object_key k') ∧
    normalize_object_key k = k ∧
    put_object_from_file c net b ("/" ++ k) fp putOpts =
      put_object_from_file c net b k fp putOpts ∧
    put_object_from_file c net b (k ++ "/") fp putOpts =
      put_object_from_file c net b k fp putOpts ∧
    put_object_from_buffer c net b ("/" ++ k) buf putOpts =
      put_object_from_buffer c net b k buf putOpts ∧
    put_object_from_buffer c net b (k ++ "/") buf putOpts =
      put_object_from_buffer c net b k buf putOpts ∧
    append_object_from_file c net b ("/" ++ k) fp pos appOpts =
      append_object_from_file c net b k fp pos appOpts ∧
    append_object_from_file c net b (k ++ "/") fp pos appOpts =
      append_object_from_file c net b k fp pos appOpts ∧
    append_object_from_buffer c net b ("/" ++ k) buf pos appOpts =
      append_object_from_buffer c net b k buf pos appOpts ∧
    append_object_from_buffer c net b (k ++ "/") buf pos appOpts =
      append_object_from_buffer c net b k buf pos appOpts := by
  have hself := normalize_object_key_eq_self k h1 h2
  have hlead := normalize_object_key_lead_slash k h2
  have htrail := normalize_object_key_trail_slash k h1
  refine ⟨put_object_from_file_sent_object c net b k' fp putOpts,
          put_object_from_buffer_sent_object c net b k' buf putOpts,
          append_object_from_file_sent_object c net b k' fp pos appOpts,
          append_object_from_buffer_sent_object c net b k' buf pos appOpts,
          hself, ?_, ?_, ?_, ?_, ?_, ?_, ?_, ?_⟩ <;>
    simp only [put_object_from_file, put_object_from_buffer, append_object_from_file,
      append_object_from_buffer, hself, hlead, htrail]

/-- Whether a string begins with two slashes; the keys on which the folder
normalization fails to be idempotent. -/
def startsWithDoubleSlash (s : String) : Bool :=
  match s.data with
  | a :: b :: _ => a = '/' && b = '/'
  | _ => false

/-- Head test of a character list: whether the first character is a slash. -/
def headSlash (l : List Char) : Bool :=
  match l with
  | c :: _ => c = '/'
  | [] => false

/-- On a key not beginning with two slashes, stripping one leading slash
leaves a list not headed by a slash. -/
lemma stripLeadSlash_head_of_not_double (k : String) (h : startsWithDoubleSlash k = false) :
    headSlash (stripLeadSlash k.data) = false := by
  unfold startsWithDoubleSlash at h
  cases hk : k.data with
  | nil => simp [stripLeadSlash, headSlash]
  | cons a r =>
    by_cases ha : a = '/'
    · subst ha
      rw [stripLeadSlash_slash_cons]
      cases r with
      | nil => simp [headSlash]
      | cons b r' =>
        rw [hk] at h
        simp at h
        simp [headSlash, h]
    · rw [stripLeadSlash_cons_of_ne a r ha]
      simp [headSlash, ha]

/-- A list not headed by a slash is unchanged by the leading-slash strip. -/
lemma stripLeadSlash_of_headSlash_false (m : List Char) (h : headSlash m = false) :
    stripLeadSlash m = m := by
  cases m with
  | nil => rfl
  | cons c r =>
    simp [headSlash] at h
    exact stripLeadSlash_cons_of_ne c r h

/-- On a key not beginning with two slashes the folder normalization is
idempotent. -/
lemma folder_object_key_idem (k : String) (h : startsWithDoubleSlash k = false) :
    folder_object_key (folder_object_key k) = folder_object_key k := by
  have hm := stripLeadSlash_head_of_not_double k h
  unfold folder_object_key
  by_cases he : endsSlash (stripLeadSlash k.data)
  · rw [if_pos he]
    show (if endsSlash (stripLeadSlash (stripLeadSlash k.data))
          then (⟨stripLeadSlash (stripLeadSlash k.data)⟩ : String)
          else ⟨stripLeadSlash (stripLeadSlash k.data) ++ ['/']⟩) = ⟨stripLeadSlash k.data⟩
    rw [stripLeadSlash_of_headSlash_false _ hm, if_pos he]
  · rw [if_neg he]
    show (if endsSlash (stripLeadSlash (stripLeadSlash k.data ++ ['/']))
          then (⟨stripLeadSlash (stripLeadSlash k.data ++ ['/'])⟩ : String)
          else ⟨stripLeadSlash (stripLeadSlash k.data ++ ['/']) ++ ['/']⟩) =
        ⟨stripLeadSlash k.data ++ ['/']⟩
    cases hmm : stripLeadSlash k.data with
    | nil => rfl
    | cons c r =>
      rw [hmm] at hm
      simp [headSlash] at hm
      rw [List.cons_append, stripLeadSlash_cons_of_ne c (r ++ ['/']) hm, ← List.cons_append,
        endsSlash_concat_slash, if_pos rfl]

/-- Every request `create_folder` issues addresses the normalized folder
key. -/
lemma create_folder_sent_object (c : Client) (net : Net) (b k : String) :
    ∀ req ∈ (create_folder c net b k).sent, req.object = folder_object_key k := by
  intro req hmem
  by_cases hb : validate_bucket_name b
  · cases hd : do_request_headers net
        { OssRequest.new with
            method := .Put, bucket := b, object := folder_object_key k,
            body := .EmptyBody, content_length := some 0 } with
    | error e =>
      simp [create_folder, hb, hd] at hmem
      rw [hmem]
    | ok hs =>
      simp [create_folder, hb, hd] at hmem
      rw [hmem]
  · simp [create_folder, hb] at hmem

/-- Every request `delete_folder` issues addresses the normalized folder
key. -/
lemma delete_folder_sent_object (c : Client) (net : Net) (b k : String) :
    ∀ req ∈ (delete_folder c net b k).sent, req.object = folder_object_key k := by
  intro req hmem
  by_cases hb : validate_bucket_name b
  · cases hd : do_request_headers net
        { OssRequest.new with
            method := .Delete, bucket := b, object := folder_object_key k } with
    | error e =>
      simp [delete_folder, hb, hd] at hmem
      rw [hmem]
    | ok hs =>
      simp [delete_folder, hb, hd] at hmem
      rw [hmem]
  · simp [delete_folder, hb] at hmem

/-- A fixed client configuration used to evaluate the theorems at concrete
inputs. -/
def clientW : Client :=
  { endpoint := "oss-cn-beijing.aliyuncs.com", region := "cn-beijing",
    access_key_id := "ak", access_key_secret := "sk" }

/-- A service that answers every request with an empty 200 response. -/
def netOk200 : Net := fun _ => .response 200 [] []

/-- C10 counterexample: the folder-key normalization is not idempotent, so
the claim fails at the concrete key "//a": `create_folder` called on "//a"
and called on its normalized form (folder_object_key "//a" = "/a/") build
different requests — the former addresses "/a/", the latter "a/". -/
theorem create_folder_raw_vs_normalized_key_differ :
    folder_object_key "//a" = "/a/" ∧
    ¬ (create_folder clientW netOk200 "bkt" "//a" =
        create_folder clientW netOk200 "bkt" (folder_object_key "//a")) := by
  constructor
  · rfl
  · decide

/-- C10 amended: `create_folder` and `delete_folder` normalize the key by
stripping at most one leading slash and appending a trailing slash exactly
when it is missing — every issued request addresses the normalized key —
and for every key that does not begin with two slashes the normalization is
idempotent: calling the operation on the key and on its normalized form
builds identical requests (the whole calls are equal). -/
theorem create_delete_folder_key_normalization (c : Client) (net : Net)
    (b k k' : String) (h : startsWithDoubleSlash k = false) :
    (∀ req ∈ (create_folder c net b k').sent, req.object = folder_object_key k') ∧
    (∀ req ∈ (delete_folder c net b k').sent, req.object = folder_object_key k') ∧
    folder_object_key (folder_object_key k) = folder_object_key k ∧
    create_folder c net b (folder_object_key k) = create_folder c net b k ∧
    delete_folder c net b (folder_object_key k) = delete_folder c net b k := by
  have hidem := folder_object_key_idem k h
  exact ⟨create_folder_sent_object c net b k',
         delete_folder_sent_object c net b k',
         hidem,
         by simp only [create_folder, hidem],
         by simp only [delete_folder, hidem]⟩

/-- A service whose callback-completion answer is a fixed 200 response with
the completion XML as body. -/
def netCbW : Net := fun _ =>
  .response 200 [("etag", "E1")]
    [.chunk "<CompleteMultipartUploadResult><ETag>E1</ETag></CompleteMultipartUploadResult>"]

/-- A service answering every request with an empty 404 response. -/
def net404W : Net := fun _ => .response 404 [] []

/-- A service streaming two chunks of body data. -/
def netStreamW : Net := fun _ => .response 200 [] [.chunk "ab", .chunk "cd"]

/-- A service whose body stream fails after its first chunk. -/
def netFailW : Net := fun _ => .response 200 [] [.chunk "ab", .fail "connection reset"]

/-- Witness for C1 at concrete inputs: with a callback attached the call
returns the raw body; without one it returns the parsed API response. -/
theorem complete_multipart_uploads_result_shape_witness :
    (complete_multipart_uploads clientW netCbW "bkt" "k.txt" ⟨"uid", [(1, "e1")]⟩
        (some ⟨some ⟨"https://cb.example.com/cb", [("a", "b")], [("x", "y")]⟩⟩)).result =
      .ok (.CallbackResponse
        "<CompleteMultipartUploadResult><ETag>E1</ETag></CompleteMultipartUploadResult>") ∧
    (complete_multipart_uploads clientW netCbW "bkt" "k.txt" ⟨"uid", [(1, "e1")]⟩ none).result =
      .ok (.ApiResponse ⟨"E1", none⟩) := by
  constructor
  · exact ((complete_multipart_uploads_result_shape clientW netCbW "bkt" "k.txt"
      ⟨"uid", [(1, "e1")]⟩
      (some ⟨some ⟨"https://cb.example.com/cb", [("a", "b")], [("x", "y")]⟩⟩)).1 rfl).2.2
      _ _ _ rfl rfl
  · have h := ((complete_multipart_uploads_result_shape clientW netCbW "bkt" "k.txt"
      ⟨"uid", [(1, "e1")]⟩ none).2 rfl).2 _ _ _ rfl rfl
    rw [h]
    decide

/-- Witness for C2 at a concrete invalid base64 input. -/
theorem base64_invalid_is_local_error_witness :
    decodeBase64 "%%%" = none ∧
    (upload_part_from_base64 clientW netOk200 "bkt" "k.txt" "%%%" ⟨1, "uid"⟩).sent = [] ∧
    (put_object_from_base64 clientW netOk200 "bkt" "k.txt" "%%%" none).result =
      .error (.other "Decoding base64 string failed") := by
  refine ⟨by decide, ?_, ?_⟩
  · exact (base64_invalid_is_local_error clientW netOk200 "bkt" "k.txt" "%%%" ⟨1, "uid"⟩ 0
      none none (by decide)).1
  · exact (base64_invalid_is_local_error clientW netOk200 "bkt" "k.txt" "%%%" ⟨1, "uid"⟩ 0
      none none (by decide)).2.2.2.1

/-- Witness for C3 at a concrete 404 answer. -/
theorem exists_object_translates_404_witness :
    (exists_object clientW net404W "bkt" "k.txt" none).result = .ok false :=
  (exists_object_translates_404 clientW net404W "bkt" "k.txt" none).2.1 (by decide)

/-- Witness for C4 at concrete inputs: an empty upload id issues no request,
valid inputs issue exactly the DELETE. -/
theorem abort_multipart_uploads_validates_before_send_witness :
    (abort_multipart_uploads clientW netOk200 "bkt" "k.txt" "").sent = [] ∧
    (abort_multipart_uploads clientW netOk200 "bkt" "k.txt" "uid").sent =
      [abortRequest "bkt" "k.txt" "uid"] := by
  constructor
  · exact ((abort_multipart_uploads_validates_before_send clientW netOk200 "bkt" "k.txt" "").1
      (Or.inr (Or.inr (by decide)))).1
  · exact (abort_multipart_uploads_validates_before_send clientW netOk200 "bkt" "k.txt" "uid").2
      (by decide) (by decide) (by decide)

/-- Witness for C5 at concrete answers: a 404 status error propagates
unchanged, a 200 yields unit. -/
theorem abort_multipart_uploads_propagates_errors_witness :
    (abort_multipart_uploads clientW net404W "bkt" "k.txt" "uid").result =
      .error (.statusError 404) ∧
    (abort_multipart_uploads clientW netOk200 "bkt" "k.txt" "uid").result = .ok () := by
  constructor
  · exact (abort_multipart_uploads_propagates_errors clientW net404W "bkt" "k.txt" "uid"
      (by decide) (by decide) (by decide)).1 (.statusError 404) (by decide)
  · exact (abort_multipart_uploads_propagates_errors clientW netOk200 "bkt" "k.txt" "uid"
      (by decide) (by decide) (by decide)).2.2 [] (by decide)

/-- Witness for C6 at a concrete valid base64 input. -/
theorem base64_ops_equal_buffer_ops_witness :
    decodeBase64 "aGk=" = some "hi" ∧
    upload_part_from_base64 clientW netOk200 "bkt" "k.txt" "aGk=" ⟨1, "uid"⟩ =
      upload_part_from_buffer clientW netOk200 "bkt" "k.txt" "hi" ⟨1, "uid"⟩ := by
  refine ⟨by decide, ?_⟩
  exact (base64_ops_equal_buffer_ops clientW netOk200 "bkt" "k.txt" "aGk=" "hi" ⟨1, "uid"⟩ 0
    none none (by decide)).1

/-- Witness for C8 at concrete streams: the file holds the concatenated
chunks and is flushed; a mid-stream failure is returned. -/
theorem get_object_to_file_writes_stream_witness :
    (get_object_to_file clientW netStreamW "/home" "bkt" "k.txt" "/tmp/out.bin" none).file =
      some ⟨"abcd", true⟩ ∧
    (get_object_to_file clientW netFailW "/home" "bkt" "k.txt" "/tmp/out.bin" none).result =
      .error (.transport "connection reset") := by
  constructor
  · have h := (get_object_to_file_writes_stream clientW netStreamW "/home" "bkt" "k.txt"
      "/tmp/out.bin" none _ 200 [] [.chunk "ab", .chunk "cd"]
      (by decide) rfl rfl (by decide)).1 (by decide)
    rw [h.2]
    decide
  · exact (get_object_to_file_writes_stream clientW netFailW "/home" "bkt" "k.txt"
      "/tmp/out.bin" none _ 200 [] [.chunk "ab", .fail "connection reset"]
      (by decide) rfl rfl (by decide)).2 "connection reset" (by decide)

/-- Witness for C9 at a concrete clean key. -/
theorem put_append_object_key_normalization_witness :
    normalize_object_key "a.txt" = "a.txt" ∧
    put_object_from_buffer clientW netOk200 "bkt" ("/" ++ "a.txt") "data" none =
      put_object_from_buffer clientW netOk200 "bkt" "a.txt" "data" none := by
  have h := put_append_object_key_normalization clientW netOk200 "bkt" "a.txt" "other-key"
    "/tmp/f.bin" "data" 0 none none (by decide) (by decide)
  exact ⟨h.2.2.2.2.1, h.2.2.2.2.2.2.2.1⟩

/-- Witness for the amended C10 at a concrete key without a double slash. -/
theorem create_delete_folder_key_normalization_witness :
    folder_object_key (folder_object_key "docs") = folder_object_key "docs" ∧
    create_folder clientW netOk200 "bkt" (folder_object_key "docs") =
      create_folder clientW netOk200 "bkt" "docs" := by
  have h := create_delete_folder_key_normalization clientW netOk200 "bkt" "docs" "other"
    (by decide)
  exact ⟨h.2.2.1, h.2.2.2.1⟩
